import Mathlib

/-!
Verification of the Streamlink dual-channel Twitch connector.

Shallow embedding of the Python sources:
  * `cogs/utils/twitch.py` — `TwitchChatter`, `TEXT_MESSAGE_REGEX`,
    `TwitchConnector` (pub/sub receive loop, IRC handshake and steady-state
    loop, `cleanup`);
  * `streamlink.py` — `twitch_points_loop` and the supervisor fragment of
    `main`.

Python strings are modelled as `List Char`; fallible Python operations
(`IndexError`, `KeyError`, `AttributeError`, `json.JSONDecodeError`) are
modelled with `Option`/`Except`.
-/

namespace Streamlink

/-- Characters of a Lean string literal, used to write Python `str` constants. -/
def strL (s : String) : List Char := s.data

/-- Python `s.split(sep)` for a single-character separator `sep`.
`"".split(";") = [""]`, `"a;;b".split(";") = ["a","","b"]`. -/
def splitChar (sep : Char) : List Char → List (List Char)
  | [] => [[]]
  | c :: cs =>
    if c = sep then [] :: splitChar sep cs
    else
      match splitChar sep cs with
      | [] => [[c]]
      | r :: rs => (c :: r) :: rs

/-- Python `s.split("\r\n")`: raw reads are split into logical lines. -/
def splitCRLF : List Char → List (List Char)
  | [] => [[]]
  | '\r' :: '\n' :: cs => [] :: splitCRLF cs
  | c :: cs =>
    match splitCRLF cs with
    | [] => [[c]]
    | r :: rs => (c :: r) :: rs

/-- Python `s.split(sep, 1)` for a single-character separator: at most one
split, so the result has one or two pieces. -/
def splitOnceChar (sep : Char) : List Char → List (List Char)
  | [] => [[]]
  | c :: cs =>
    if c = sep then [[], cs]
    else
      match splitOnceChar sep cs with
      | [] => [[c]]
      | r :: rs => (c :: r) :: rs

/-- Python `str` whitespace, as recognised by `str.strip()`. -/
def isPySpace (c : Char) : Bool :=
  c = ' ' || c = '\t' || c = '\n' || c = '\r' || c = '\x0b' || c = '\x0c'

/-- Truth value of Python `not line.strip()`: every character is whitespace. -/
def isBlankLine (l : List Char) : Bool := l.all isPySpace

/-- Mirror of the `TwitchChatter` dataclass (cogs/utils/twitch.py). -/
structure TwitchChatter where
  username : List Char
  colour : Option (List Char) := none
  moderator : Bool := false
  subscriber : Bool := false
  vip : Bool := false
deriving DecidableEq, Repr

/-- Python `i.split("=")[0]` and `i.split("=")[1]` for one tag segment.
`[1]` raises `IndexError` exactly when the segment contains no `"="`;
that failure is modelled as `none`. -/
def tagKeyValue (seg : List Char) : Option (List Char × List Char) :=
  match splitChar '=' seg with
  | [] => none
  | [_] => none
  | k :: v :: _ => some (k, v)

/-- The dict comprehension of `TwitchChatter.parse` over all segments:
fails (Python `IndexError`) as soon as one segment has no `"="`. -/
def tagPairs : List (List Char) → Option (List (List Char × List Char))
  | [] => some []
  | seg :: rest =>
    match tagKeyValue seg with
    | none => none
    | some kv =>
      match tagPairs rest with
      | none => none
      | some r => some (kv :: r)

/-- Python dict lookup `keys.get(k)` for the dict built by the comprehension:
a later occurrence of the same key overwrites an earlier one. -/
def dictGet (pairs : List (List Char × List Char)) (k : List Char) :
    Option (List Char) :=
  match pairs with
  | [] => none
  | (k2, v) :: rest =>
    match dictGet rest k with
    | some v2 => some v2
    | none => if k2 = k then some v else none

/-- Mirror of `TwitchChatter.parse` (cogs/utils/twitch.py lines 51-71).
Returns `none` where Python raises `IndexError` (a semicolon-separated
segment without `"="`). `colour` is `none` when the `color` tag is missing
or empty (`keys.get("color") or None`). -/
def TwitchChatter.parse (username : List Char) (line : List Char) :
    Option TwitchChatter :=
  match tagPairs (splitChar ';' line) with
  | none => none
  | some pairs =>
    let colour : Option (List Char) :=
      match dictGet pairs (strL "color") with
      | some v => if v = [] then none else some v
      | none => none
    some
      { username := username
        colour := colour
        moderator := (dictGet pairs (strL "mod")).getD (strL "0") == strL "1"
        subscriber := (dictGet pairs (strL "subscriber")).getD (strL "0") == strL "1"
        vip := (dictGet pairs (strL "vip")).getD (strL "0") == strL "1" }

/-- Truth of `.` in the pattern: any character except a newline
(Python `re` without `DOTALL`). -/
def dotChar (c : Char) : Bool := c != '\n'

/-- Backtracking search for a lazy `.+?` group: the group is extended one
character at a time (shortest extension first, every character a `.`), and
the continuation `k` is tried at each split; the first success wins — the
order in which a backtracking regex engine tries a lazy quantifier. `g` is
the part of the group already committed. -/
def lazyRun (k : List Char → List Char → Option α) :
    List Char → List Char → Option α
  | _, [] => none
  | g, c :: cs =>
    if dotChar c then
      match k (g ++ [c]) cs with
      | some v => some v
      | none => lazyRun k (g ++ [c]) cs
    else none

/-- Groups of a successful `TEXT_MESSAGE_REGEX` match:
tags (when the optional tag block matched), username, channel, message. -/
structure TextMatch where
  tags : Option (List Char)
  username : List Char
  channel : List Char
  message : List Char
deriving DecidableEq, Repr

/-- Final `(?P<message>.+)` of the pattern: greedy, `.` excludes newline,
and `re.match` does not anchor the end of the pattern, so any nonempty
run of non-newline characters at the front succeeds. -/
def matchMessage (r : List Char) : Option (List Char) :=
  match r with
  | [] => none
  | c :: cs => if dotChar c then some (c :: cs.takeWhile dotChar) else none

/-- Match one literal character of the pattern at the front of the input. -/
def litChar (c : Char) : List Char → Option (List Char)
  | [] => none
  | d :: rest => if d = c then some rest else none

/-- Match a literal string of the pattern at the front of the input. -/
def litList : List Char → List Char → Option (List Char)
  | [], r => some r
  | _ :: _, [] => none
  | c :: cs, d :: rest => if d = c then litList cs rest else none

/-- Literal `" :"` then the message group — the continuation tried after
each candidate channel group. -/
def afterChannel (tags : Option (List Char)) (u chan : List Char)
    (r : List Char) : Option TextMatch :=
  (litChar ' ' r).bind fun r1 =>
    (litChar ':' r1).bind fun r2 =>
      (matchMessage r2).map fun m => ⟨tags, u, chan, m⟩

/-- Literal `".tmi.twitch.tv PRIVMSG #"` then the lazy channel group. -/
def afterHost (tags : Option (List Char)) (u : List Char)
    (r : List Char) : Option TextMatch :=
  (litList (strL ".tmi.twitch.tv PRIVMSG #") r).bind fun r1 =>
    lazyRun (afterChannel tags u) [] r1

/-- Part of the pattern from the `':'` on:
`:(?P<username>.+?)!.+?@.+?\.tmi\.twitch\.tv PRIVMSG #(?P<channel>.+?) :(?P<message>.+)`,
with `tags` the already-matched optional tag group. -/
def matchFromColon (tags : Option (List Char)) (r : List Char) :
    Option TextMatch :=
  (litChar ':' r).bind fun r1 =>
    lazyRun (fun u r2 =>
      (litChar '!' r2).bind fun r3 =>
        lazyRun (fun _ r4 =>
          (litChar '@' r4).bind fun r5 =>
            lazyRun (fun _ r6 => afterHost tags u r6) [] r5) [] r3) [] r1

/-- Mirror of `TEXT_MESSAGE_REGEX.match(line)` (cogs/utils/twitch.py lines
35-40). The optional group `(?:@(?P<tags>.+?) )?` is tried first, as a
backtracking engine tries a greedy `?`; if no split of the tag group lets
the rest of the pattern match, the whole pattern is retried without the
group. -/
def textMessageMatch (line : List Char) : Option TextMatch :=
  match line with
  | '@' :: r =>
    match lazyRun (fun t r2 =>
        (litChar ' ' r2).bind fun r3 => matchFromColon (some t) r3) [] r with
    | some v => some v
    | none => matchFromColon none line
  | _ => matchFromColon none line

/-- Observable actions of the IRC steady-state loop (debug-level logging is
not modelled; `log.info` of an unrecognized line is `logIrc`). -/
inductive IrcAction where
  | logReadError (e : List Char)
  | sendPong (token : List Char)
  | enqueueChat (chatter : TwitchChatter) (message : List Char)
  | logIrc (line : List Char)
deriving DecidableEq, Repr

/-- Steady-state processing of one logical line (cogs/utils/twitch.py lines
495-529): blank lines are skipped; a `"PING "` line sends
`PONG line.split(' ', 1)[1]`; a `TEXT_MESSAGE_REGEX` match is enqueued on
the chat queue (through `TwitchChatter.parse` when the tag group matched);
anything else is logged. The `Bool` is `true` when the line's processing
raised out of the loop (`TwitchChatter.parse` hitting a tag segment without
`"="`, Python `IndexError`). -/
def processChatLine (line : List Char) : List IrcAction × Bool :=
  if isBlankLine line then ([], false)
  else if (strL "PING ").isPrefixOf line then
    match splitOnceChar ' ' line with
    | _ :: tok :: _ => ([.sendPong tok], false)
    | _ => ([], true)
  else
    match textMessageMatch line with
    | some m =>
      match m.tags with
      | some t =>
        match TwitchChatter.parse m.username t with
        | some ch => ([.enqueueChat ch m.message], false)
        | none => ([], true)
      | none =>
        ([.enqueueChat { username := m.username } m.message], false)
    | none => ([.logIrc line], false)

/-- Steady-state processing of a list of logical lines, in order, stopping
where a line raises. -/
def processChatLines : List (List Char) → List IrcAction × Bool
  | [] => ([], false)
  | l :: ls =>
    match processChatLine l with
    | (as, true) => (as, true)
    | (as, false) =>
      match processChatLines ls with
      | (as2, f2) => (as ++ as2, f2)

/-- Steady-state processing of one raw socket read: split on `"\r\n"` and
process every logical line in order. -/
def processChatRead (raw : List Char) : List IrcAction × Bool :=
  processChatLines (splitCRLF raw)

/-- Mirror of one steady-state iteration of `handle_irc_message_receive`
(cogs/utils/twitch.py lines 485-529): the `try` around `chat_socket.recv()`
logs a transport error and `continue`s the loop; a successful read is split
on `"\r\n"` and its lines processed. The `Bool` is `true` when the
iteration raised out of the loop. -/
def handleIrcSteadyStep (recvRes : Except (List Char) (List Char)) :
    List IrcAction × Bool :=
  match recvRes with
  | .error e => ([.logReadError e], false)
  | .ok raw => processChatRead raw

/-- Observable events of the IRC handshake phase. -/
inductive HsEvent where
  | logReadError
  | logLoginFailed
  | closeChatSocket
  | logConnected
deriving DecidableEq, Repr

/-- Result of the handshake phase. -/
inductive HsOutcome where
  | loginFailed
  | welcomed
  | stillWaiting
deriving DecidableEq, Repr

/-- Handshake scan of the lines of one read (cogs/utils/twitch.py lines
460-476): the login-failure literal logs, closes the chat socket when it is
set (the `assert`/`close`/`except AssertionError` block) and returns from
the coroutine; a line ending `":Welcome, GLHF!"` logs and breaks out of the
line loop, discarding the remaining lines of the read; any other line is
ignored. -/
def hsLines (socketPresent : Bool) : List (List Char) → List HsEvent × HsOutcome
  | [] => ([], .stillWaiting)
  | l :: ls =>
    if l = strL ":tmi.twitch.tv NOTICE * :Login unsuccessful" then
      (.logLoginFailed :: (if socketPresent then [.closeChatSocket] else []),
        .loginFailed)
    else if (strL ":Welcome, GLHF!").isSuffixOf l then
      ([.logConnected], .welcomed)
    else hsLines socketPresent ls

/-- Handshake loop over successive socket reads (cogs/utils/twitch.py lines
450-476): a transport error on `recv` is logged and the read retried; a
successful read is split on `"\r\n"` and scanned by `hsLines`. -/
def hsRun (socketPresent : Bool) :
    List (Except (List Char) (List Char)) → List HsEvent × HsOutcome
  | [] => ([], .stillWaiting)
  | .error _ :: rs =>
    match hsRun socketPresent rs with
    | (evs, o) => (.logReadError :: evs, o)
  | .ok raw :: rs =>
    match hsLines socketPresent (splitCRLF raw) with
    | (evs, .stillWaiting) =>
      match hsRun socketPresent rs with
      | (evs2, o) => (evs ++ evs2, o)
    | (evs, o) => (evs, o)

/-- A Python exception class relevant to the embedded methods. -/
inductive PyError where
  | attributeError
  | jsonDecodeError
  | keyOrTypeError
deriving DecidableEq, Repr

/-- Connector attribute state as `cleanup` sees it: `none` models an
attribute still holding Python `None` (the connector was never started); a
socket present carries whether it is already closed. -/
structure ConnectorTasks where
  heartbeatTask : Option Unit
  messageTask : Option Unit
  ircMessageTask : Option Unit
  socket : Option Bool
  chatSocket : Option Bool
deriving DecidableEq, Repr

/-- Observable actions of `cleanup`. -/
inductive CleanupAction where
  | logCancelling
  | cancelHeartbeat
  | cancelMessageTask
  | cancelIrcTask
  | logClosing
  | closeSocket
  | closeChatSocket
deriving DecidableEq, Repr

/-- Mirror of `TwitchConnector.cleanup` (cogs/utils/twitch.py lines 407-418):
the cancels and closes are attempted in source order; accessing `.cancel()`
or `.close()` on an attribute that is still `None` raises `AttributeError`,
aborting the method there (actions already performed are kept).
`Task.cancel()` on any task and `close()` on an already-closed websocket are
no-ops that do not raise. -/
def cleanup (s : ConnectorTasks) : List CleanupAction × Option PyError :=
  match s.heartbeatTask with
  | none => ([.logCancelling], some .attributeError)
  | some _ =>
    match s.messageTask with
    | none => ([.logCancelling, .cancelHeartbeat], some .attributeError)
    | some _ =>
      match s.ircMessageTask with
      | none =>
        ([.logCancelling, .cancelHeartbeat, .cancelMessageTask],
          some .attributeError)
      | some _ =>
        match s.socket with
        | none =>
          ([.logCancelling, .cancelHeartbeat, .cancelMessageTask,
            .cancelIrcTask, .logClosing], some .attributeError)
        | some _ =>
          match s.chatSocket with
          | none =>
            ([.logCancelling, .cancelHeartbeat, .cancelMessageTask,
              .cancelIrcTask, .logClosing, .closeSocket], some .attributeError)
          | some _ =>
            ([.logCancelling, .cancelHeartbeat, .cancelMessageTask,
              .cancelIrcTask, .logClosing, .closeSocket, .closeChatSocket],
              none)

mutual

/-- Decoded JSON value, the result type of the model of `json.loads`. -/
inductive Json where
  | null
  | bool (b : Bool)
  | num (n : Int)
  | str (s : List Char)
  | arr (elems : JsonList)
  | obj (fields : JsonFields)
deriving DecidableEq, Repr

/-- Elements of a JSON array. -/
inductive JsonList where
  | nil
  | cons (hd : Json) (tl : JsonList)
deriving DecidableEq, Repr

/-- Fields of a JSON object, in source order. -/
inductive JsonFields where
  | nil
  | cons (key : List Char) (val : Json) (tl : JsonFields)
deriving DecidableEq, Repr

end

/-- JSON whitespace skipping. -/
def skipWs (s : List Char) : List Char :=
  s.dropWhile (fun c => c = ' ' || c = '\t' || c = '\n' || c = '\r')

/-- JSON string body after the opening quote: the decoded content and the
rest after the closing quote, handling the one-character escapes the
protocol uses (`\"`, `\\`, `\/`, `\n`, `\t`, `\r`, `\b`, `\f`). -/
def parseJsonString : Nat → List Char → Option (List Char × List Char)
  | 0, _ => none
  | _, [] => none
  | fuel + 1, c :: cs =>
    if c = '"' then some ([], cs)
    else if c = '\\' then
      match cs with
      | [] => none
      | e :: cs2 =>
        let dec : Option Char :=
          if e = '"' then some '"'
          else if e = '\\' then some '\\'
          else if e = '/' then some '/'
          else if e = 'n' then some '\n'
          else if e = 't' then some '\t'
          else if e = 'r' then some '\r'
          else if e = 'b' then some '\x08'
          else if e = 'f' then some '\x0c'
          else none
        match dec with
        | none => none
        | some d =>
          match parseJsonString fuel cs2 with
          | some (s, rest) => some (d :: s, rest)
          | none => none
    else
      match parseJsonString fuel cs with
      | some (s, rest) => some (c :: s, rest)
      | none => none

/-- Numeric value of a digit run. -/
def digitsVal (ds : List Char) : Nat :=
  ds.foldl (fun a c => a * 10 + (c.toNat - 48)) 0

/-- JSON integer literal (the protocol's numbers — reward costs, counts —
are integers). -/
def parseJsonNumber (s : List Char) : Option (Json × List Char) :=
  match s with
  | '-' :: rest =>
    let ds := rest.takeWhile Char.isDigit
    if ds = [] then none
    else some (.num (-(Int.ofNat (digitsVal ds))), rest.drop ds.length)
  | _ =>
    let ds := s.takeWhile Char.isDigit
    if ds = [] then none
    else some (.num (Int.ofNat (digitsVal ds)), s.drop ds.length)

mutual

/-- JSON value parser, fuel-recursive. -/
def parseJsonValue : Nat → List Char → Option (Json × List Char)
  | 0, _ => none
  | fuel + 1, s =>
    match skipWs s with
    | [] => none
    | c :: cs =>
      if c = '"' then
        match parseJsonString (cs.length + 1) cs with
        | some (str, rest) => some (.str str, rest)
        | none => none
      else if c = '{' then
        match skipWs cs with
        | '}' :: rest => some (.obj .nil, rest)
        | cs2 =>
          match parseJsonMembers fuel cs2 with
          | some (fs, rest) => some (.obj fs, rest)
          | none => none
      else if c = '[' then
        match skipWs cs with
        | ']' :: rest => some (.arr .nil, rest)
        | cs2 =>
          match parseJsonElems fuel cs2 with
          | some (es, rest) => some (.arr es, rest)
          | none => none
      else if (strL "true").isPrefixOf (c :: cs) then
        some (.bool true, (c :: cs).drop 4)
      else if (strL "false").isPrefixOf (c :: cs) then
        some (.bool false, (c :: cs).drop 5)
      else if (strL "null").isPrefixOf (c :: cs) then
        some (.null, (c :: cs).drop 4)
      else parseJsonNumber (c :: cs)

/-- Members of a JSON object, after the opening `{` (nonempty case). -/
def parseJsonMembers : Nat → List Char → Option (JsonFields × List Char)
  | 0, _ => none
  | fuel + 1, s =>
    match skipWs s with
    | '"' :: cs =>
      match parseJsonString (cs.length + 1) cs with
      | some (k, r1) =>
        match skipWs r1 with
        | ':' :: r2 =>
          match parseJsonValue fuel r2 with
          | some (v, r3) =>
            match skipWs r3 with
            | ',' :: r4 =>
              match parseJsonMembers fuel r4 with
              | some (fs, rest) => some (.cons k v fs, rest)
              | none => none
            | '}' :: r4 => some (.cons k v .nil, r4)
            | _ => none
          | none => none
        | _ => none
      | none => none
    | _ => none

/-- Elements of a JSON array, after the opening `[` (nonempty case). -/
def parseJsonElems : Nat → List Char → Option (JsonList × List Char)
  | 0, _ => none
  | fuel + 1, s =>
    match parseJsonValue fuel s with
    | some (v, r1) =>
      match skipWs r1 with
      | ',' :: r2 =>
        match parseJsonElems fuel r2 with
        | some (es, rest) => some (.cons v es, rest)
        | none => none
      | ']' :: r2 => some (.cons v .nil, r2)
      | _ => none
    | none => none

end

/-- Model of Python `json.loads` on the protocol's JSON subset; `none` is a
`json.JSONDecodeError`. -/
def jsonLoads (s : List Char) : Option Json :=
  match parseJsonValue (s.length + 1) s with
  | some (v, rest) => if skipWs rest = [] then some v else none
  | none => none

/-- Python dict lookup on decoded JSON object fields: as in the dict built
by `json.loads`, a later duplicate key overwrites an earlier one. -/
def lookupField : JsonFields → List Char → Option Json
  | .nil, _ => none
  | .cons k2 v rest, k =>
    match lookupField rest k with
    | some v2 => some v2
    | none => if k2 = k then some v else none

/-- Python `d[k]` on a decoded JSON value: `none` models the `KeyError`
(missing key) or `TypeError` (subscripting a non-object). -/
def Json.get? (j : Json) (k : List Char) : Option Json :=
  match j with
  | .obj fields => lookupField fields k
  | _ => none

/-- Observable actions of one pub/sub receive-loop iteration. -/
inductive PubAction where
  | logReadError (e : List Char)
  | logPong
  | enqueueRedemption (ev : Json)
  | logOther (data : Json)
deriving DecidableEq, Repr

/-- Mirror of one iteration of `TwitchConnector.handle_message_receive`
(cogs/utils/twitch.py lines 339-357; identical in twitch.py lines 259-277).
The `try` wraps only `socket.recv()`: a transport error is logged and the
loop continues; `json.loads(data_raw)` and the subscripting of the decoded
frame run outside the `try`, so their exceptions propagate out of the
coroutine and terminate the loop — modelled as `Except.error`. -/
def handleMessageStep (recvRes : Except (List Char) (List Char)) :
    Except PyError (List PubAction) :=
  match recvRes with
  | .error e => .ok [.logReadError e]
  | .ok raw =>
    match jsonLoads raw with
    | none => .error .jsonDecodeError
    | some data =>
      match data.get? (strL "type") with
      | none => .error .keyOrTypeError
      | some t =>
        if t = .str (strL "PONG") then .ok [.logPong]
        else if t = .str (strL "MESSAGE") then
          match data.get? (strL "data") with
          | none => .error .keyOrTypeError
          | some d =>
            match d.get? (strL "topic") with
            | none => .error .keyOrTypeError
            | some (Json.str topic) =>
              if (strL "channel-points-channel-v1").isPrefixOf topic then
                match d.get? (strL "message") with
                | none => .error .keyOrTypeError
                | some (Json.str ms) =>
                  match jsonLoads ms with
                  | none => .error .jsonDecodeError
                  | some ev => .ok [.enqueueRedemption ev]
                | some _ => .error .keyOrTypeError
              else .ok [.logOther data]
            | some _ => .error .keyOrTypeError
        else .ok [.logOther data]

/-- Mirror of `RewardRedemptionStatus` (`_types.py`). -/
inductive RewardRedemptionStatus where
  | UNKNOWN
  | UNFULFILLED
  | FULFILLED
  | CANCELED
deriving DecidableEq, Repr

/-- Fields of `ChannelPointsReward` (`_types.py`) that the points loop reads. -/
structure ChannelPointsReward where
  id : List Char
  channelId : List Char
  title : List Char
  cost : Int
deriving DecidableEq, Repr

/-- Fields of `ChannelPointsRedemption` (`_types.py`) that the points loop
reads. -/
structure ChannelPointsRedemption where
  id : List Char
  channelId : List Char
  reward : ChannelPointsReward
  userInput : List Char
deriving DecidableEq, Repr

/-- Mirror of `ChannelPointsData` (`_types.py`). -/
structure ChannelPointsData where
  timestamp : List Char
  redemption : ChannelPointsRedemption
deriving DecidableEq, Repr

/-- Mirror of `ChannelPointsEventMessage` (`_types.py`), the element type of
the connector's redemption queue. -/
structure ChannelPointsEventMessage where
  type : List Char
  data : ChannelPointsData
deriving DecidableEq, Repr

/-- One `update_redemption_status` call as the points loop issues it: the
identifying arguments of `TwitchOauth.update_redemption_status`
(cogs/utils/twitch.py lines 282-313). -/
structure UpdateCall where
  redemptionId : List Char
  channelId : List Char
  rewardId : List Char
  status : RewardRedemptionStatus
deriving DecidableEq, Repr

/-- Outcome (`status`) of the inline play-sound handler in
`twitch_points_loop` (streamlink.py lines 385-413): `none` when the reward
title does not start with `"Play sound: "` (the `status` variable is never
assigned), otherwise `some playOk`, where `playOk` says whether the VLC
playback block ran without raising. -/
def playSoundOutcome (playOk : Bool) (m : ChannelPointsEventMessage) :
    Option Bool :=
  if (strL "Play sound: ").isPrefixOf m.data.redemption.reward.title then
    some playOk
  else none

/-- Per-event body of `twitch_points_loop` (streamlink.py lines 381-425):
the `update_redemption_status` calls issued for one dequeued message, given
the outcome of the external VLC playback attempt. -/
def pointsLoopCalls (channelId : List Char) (playOk : Bool)
    (m : ChannelPointsEventMessage) : List UpdateCall :=
  match playSoundOutcome playOk m with
  | none => []
  | some st =>
    [{ redemptionId := m.data.redemption.id
       channelId := channelId
       rewardId := m.data.redemption.reward.id
       status := if st then .FULFILLED else .CANCELED }]

/-- Observable actions of the supervision loop in `main`. -/
inductive SupAction where
  | logMessageLoopFailed
  | logRestartingIn10
  | sleepMs (n : Nat)
  | restartMessageLoop
  | restartPointsLoop
  | logMessageLoopRestarted
deriving DecidableEq, Repr

/-- Inner restart loop of `main` (streamlink.py lines 552-563), entered when
the message-loop task is done with an exception: per attempt it logs the
fault, logs the restart notice, sleeps 10 s, creates a fresh
`twitch_message_loop(twitch)` task on the same connector (hence the same
queues), sleeps the 0.1 s grace period, and re-checks the new task; it
retries while the new task is already done. One element of `aliveOutcomes`
answers each re-check. -/
def messageLoopRestart : List Bool → List SupAction
  | [] => []
  | alive :: rest =>
    [.logMessageLoopFailed, .logRestartingIn10, .sleepMs 10000,
      .restartMessageLoop, .sleepMs 100] ++
      (if alive then [.logMessageLoopRestarted] else messageLoopRestart rest)

/-- One iteration of the supervision loop in `main` (streamlink.py lines
545-566): only `message_loop_task` is examined (done-with-exception);
`points_loop_task` is never polled, whatever its state, so the
`_pointsLoopFaulted` flag cannot influence the actions. The trailing
`sleepMs 100` is the loop's own `await asyncio.sleep(0.1)`. -/
def supervisorIteration (messageLoopFaulted _pointsLoopFaulted : Bool)
    (aliveOutcomes : List Bool) : List SupAction :=
  (if messageLoopFaulted then messageLoopRestart aliveOutcomes else []) ++
    [.sleepMs 100]

/-- Well-formedness of one rendered wire-line component: nonempty and free
of each of the listed characters. -/
abbrev goodComp (l bad : List Char) : Prop := l ≠ [] ∧ ∀ c ∈ l, c ∉ bad

/-- A rendered tagged PRIVMSG wire line, associavity chosen to mirror the
order the matcher consumes it. -/
def renderTagged (tags user host1 host2 chan msg : List Char) : List Char :=
  '@' :: (tags ++ ' ' :: ':' :: (user ++ '!' :: (host1 ++ '@' :: (host2 ++
    (strL ".tmi.twitch.tv PRIVMSG #" ++ (chan ++ ' ' :: ':' :: msg))))))

/-- A rendered untagged PRIVMSG wire line. -/
def renderUntagged (user host1 host2 chan msg : List Char) : List Char :=
  ':' :: (user ++ '!' :: (host1 ++ '@' :: (host2 ++
    (strL ".tmi.twitch.tv PRIVMSG #" ++ (chan ++ ' ' :: ':' :: msg)))))

/-- One rendered `key=value` tag segment. -/
def renderSeg (kv : List Char × List Char) : List Char := kv.1 ++ '=' :: kv.2

/-- A rendered semicolon-joined tag block. -/
def renderTags : List (List Char × List Char) → List Char
  | [] => []
  | [kv] => renderSeg kv
  | kv :: rest => renderSeg kv ++ ';' :: renderTags rest

/-- Well-formedness of one tag pair: key and value free of `'='`, `';'`,
`' '` and newline (the IRCv3 raw-value alphabet the bot relies on). -/
abbrev goodPair (kv : List Char × List Char) : Prop :=
  (∀ c ∈ kv.1, c ∉ strL "=; \n") ∧ ∀ c ∈ kv.2, c ∉ strL "=; \n"

/-- Chatter value the parse computes from a pair list: the dict lookups of
`TwitchChatter.parse` applied to the original pairs. -/
def chatterOfPairs (username : List Char)
    (pairs : List (List Char × List Char)) : TwitchChatter where
  username := username
  colour := match dictGet pairs (strL "color") with
            | some v => if v = [] then none else some v
            | none => none
  moderator := (dictGet pairs (strL "mod")).getD (strL "0") == strL "1"
  subscriber := (dictGet pairs (strL "subscriber")).getD (strL "0") == strL "1"
  vip := (dictGet pairs (strL "vip")).getD (strL "0") == strL "1"

/-- The nested reward field of a decoded redemption event:
`ev['data']['redemption']['reward'][f]`. -/
def rewardField (ev : Json) (f : List Char) : Option Json :=
  (((ev.get? (strL "data")).bind
      (fun d => d.get? (strL "redemption"))).bind
      (fun r => r.get? (strL "reward"))).bind
      (fun w => w.get? f)

/-- The reward field reached from a raw pub/sub envelope: decode the
envelope, take the nested `data.message` JSON string, decode it a second
time, and follow `data.redemption.reward.<f>` — the double decode whose
round-trip the spec asserts. -/
def envelopeNestedRewardField (raw f : List Char) : Option Json :=
  (jsonLoads raw).bind fun data =>
    (data.get? (strL "data")).bind fun d =>
      (d.get? (strL "message")).bind fun msgJ =>
        match msgJ with
        | .str ms => (jsonLoads ms).bind fun ev => rewardField ev f
        | _ => none

/-- Concrete nested redemption event for the C8 witness. -/
def sampleRedemptionEvent : Json :=
  .obj (.cons (strL "type") (.str (strL "reward-redeemed"))
    (.cons (strL "data") (.obj
      (.cons (strL "redemption") (.obj
        (.cons (strL "id") (.str (strL "red-1"))
          (.cons (strL "reward") (.obj
            (.cons (strL "id") (.str (strL "rw-1"))
              (.cons (strL "title") (.str (strL "Play sound: uwu"))
                (.cons (strL "cost") (.num 69) .nil))))
            .nil)))
        .nil))
      .nil))

/-- Concrete nested message string for the C8 witness. -/
def sampleMessageStr : List Char :=
  strL "\x7b\"type\":\"reward-redeemed\",\"data\":\x7b\"redemption\":\x7b\"id\":\"red-1\",\"reward\":\x7b\"id\":\"rw-1\",\"title\":\"Play sound: uwu\",\"cost\":69\x7d\x7d\x7d\x7d"

/-- Concrete raw pub/sub envelope for the C8 witness. -/
def sampleEnvelope : List Char :=
  strL "\x7b\"type\":\"MESSAGE\",\"data\":\x7b\"topic\":\"channel-points-channel-v1.123\",\"message\":\"\x7b\\\"type\\\":\\\"reward-redeemed\\\",\\\"data\\\":\x7b\\\"redemption\\\":\x7b\\\"id\\\":\\\"red-1\\\",\\\"reward\\\":\x7b\\\"id\\\":\\\"rw-1\\\",\\\"title\\\":\\\"Play sound: uwu\\\",\\\"cost\\\":69\x7d\x7d\x7d\x7d\"\x7d\x7d"

/-- Decoded form of the C8 witness envelope. -/
def sampleEnvelopeData : Json :=
  .obj (.cons (strL "type") (.str (strL "MESSAGE"))
    (.cons (strL "data") (.obj
      (.cons (strL "topic") (.str (strL "channel-points-channel-v1.123"))
        (.cons (strL "message") (.str sampleMessageStr) .nil)))
      .nil))

/-- Inner `data` object of the C8 witness envelope. -/
def sampleEnvelopeInner : Json :=
  .obj (.cons (strL "topic") (.str (strL "channel-points-channel-v1.123"))
    (.cons (strL "message") (.str sampleMessageStr) .nil))

/-! ## Theorems -/



/-- C1: for every redemption event dequeued by the points loop, a handler
outcome of `True` issues exactly one `update_redemption_status` call with
status `FULFILLED` and the redemption's own redemption id and reward id; an
outcome of `False`, exactly one `CANCELED` call; an outcome of `None`, zero
calls; and never more than one status-update call per event. -/
theorem pointsLoop_status_calls (channelId : List Char) (playOk : Bool)
    (m : ChannelPointsEventMessage) :
    (playSoundOutcome playOk m = some true →
      pointsLoopCalls channelId playOk m =
        [{ redemptionId := m.data.redemption.id, channelId := channelId
           rewardId := m.data.redemption.reward.id
           status := .FULFILLED }]) ∧
    (playSoundOutcome playOk m = some false →
      pointsLoopCalls channelId playOk m =
        [{ redemptionId := m.data.redemption.id, channelId := channelId
           rewardId := m.data.redemption.reward.id
           status := .CANCELED }]) ∧
    (playSoundOutcome playOk m = none →
      pointsLoopCalls channelId playOk m = []) ∧
    (pointsLoopCalls channelId playOk m).length ≤ 1 := by
  unfold pointsLoopCalls
  rcases h : playSoundOutcome playOk m with - | b
  · simp
  · cases b <;> simp

/-- The supervisor fragment of `main` never issues a points-loop restart,
whatever the task states and aliveness outcomes. -/
theorem restartPointsLoop_not_issued (mf pf : Bool) (outs : List Bool) :
    SupAction.restartPointsLoop ∉ supervisorIteration mf pf outs := by
  have key : ∀ l : List Bool, SupAction.restartPointsLoop ∉ messageLoopRestart l := by
    intro l
    induction l with
    | nil => simp [messageLoopRestart]
    | cons a rest ih =>
      simp only [messageLoopRestart, List.mem_append, List.mem_cons]
      rintro (h | h)
      · simp at h
      · rcases a with - | -
        · simp only [if_neg Bool.false_ne_true] at h
          exact ih h
        · simp at h
  unfold supervisorIteration
  rcases mf with - | -
  · simp
  · simp only [if_pos rfl, List.mem_append, List.mem_cons]
    rintro (h | h)
    · exact key outs h
    · simp at h

/-- C2 counterexample: with the points-loop task faulted (and the message
loop healthy), one supervisor iteration performs only its idle sleep — it
never logs, backs off, or restarts a fresh points loop, refuting the claim
for the points dispatch loop. -/
theorem supervisor_ignores_points_fault :
    supervisorIteration false true [true] = [.sleepMs 100] ∧
    SupAction.restartPointsLoop ∉ supervisorIteration false true [true] := by
  constructor
  · rfl
  · decide

/-- C2 amended: only the chat/message loop is supervised. When the
message-loop task has terminated with an unhandled fault, the supervisor
logs the fault, waits the fixed 10-second backoff, restarts a fresh message
loop bound to the same connector (hence the same queues), sleeps the
0.1-second grace period and re-checks that the new task is alive, retrying
otherwise; the points-loop task is never polled and never restarted. -/
theorem supervisor_restarts_message_loop_only (p alive : Bool)
    (rest outs : List Bool) (mf pf : Bool) :
    supervisorIteration true p (alive :: rest) =
      [.logMessageLoopFailed, .logRestartingIn10, .sleepMs 10000,
        .restartMessageLoop, .sleepMs 100] ++
        (if alive then [.logMessageLoopRestarted]
          else messageLoopRestart rest) ++ [.sleepMs 100] ∧
    SupAction.restartPointsLoop ∉ supervisorIteration mf pf outs := by
  refine ⟨?_, restartPointsLoop_not_issued mf pf outs⟩
  simp [supervisorIteration, messageLoopRestart]

/-- C4 counterexample: `cleanup` on a connector that was never started (all
task and socket attributes still `None`) raises `AttributeError` at the
first `heartbeat_task.cancel()`, refuting "completes without raising even
when the connector was never started". -/
theorem cleanup_never_started_raises :
    cleanup { heartbeatTask := none, messageTask := none, ircMessageTask := none
              socket := none, chatSocket := none } =
      ([.logCancelling], some .attributeError) := by
  rfl

/-- C4 amended: once the connector has been started (all three tasks and
both sockets exist), `cleanup` cancels the heartbeat task and both receive
tasks and then closes both sockets, in order, and completes without raising
— including when either socket is already closed; but on a never-started
connector it raises `AttributeError` at the first absent attribute. -/
theorem cleanup_started_completes (hb mt it : Unit) (sockClosed chatClosed : Bool) :
    cleanup { heartbeatTask := some hb, messageTask := some mt
              ircMessageTask := some it, socket := some sockClosed
              chatSocket := some chatClosed } =
      ([.logCancelling, .cancelHeartbeat, .cancelMessageTask, .cancelIrcTask,
        .logClosing, .closeSocket, .closeChatSocket], none) ∧
    (cleanup { heartbeatTask := none, messageTask := none
               ircMessageTask := none, socket := none, chatSocket := none }).2 =
      some .attributeError := by
  exact ⟨rfl, rfl⟩

/-- C3 counterexample: a pub/sub frame that is not valid JSON raises out of
`handle_message_receive` (the `json.loads` call is outside the `try`),
terminating the receive loop, refuting "logged and dropped and never
terminates the pub/sub receive loop". -/
theorem pubsub_unparseable_frame_fatal :
    handleMessageStep (.ok (strL "not json")) = .error .jsonDecodeError := by
  rfl

/-- C3 amended: a transport error reading either socket is logged and never
terminates its receive loop — on the pub/sub socket, on the IRC socket in
steady state, and on the IRC socket during the handshake (where the read is
retried) — and an IRC line matching no recognized pattern is logged and
dropped; but a pub/sub frame that is not valid JSON, or whose decoded value
lacks the expected `type` field, raises and terminates the pub/sub receive
loop. -/
theorem receive_loop_fault_handling (e raw line : List Char) (data : Json)
    (reads : List (Except (List Char) (List Char))) :
    handleMessageStep (.error e) = .ok [.logReadError e] ∧
    handleIrcSteadyStep (.error e) = ([.logReadError e], false) ∧
    hsRun true (.error e :: reads) =
      (.logReadError :: (hsRun true reads).1, (hsRun true reads).2) ∧
    (jsonLoads raw = none →
      handleMessageStep (.ok raw) = .error .jsonDecodeError) ∧
    (jsonLoads raw = some data → data.get? (strL "type") = none →
      handleMessageStep (.ok raw) = .error .keyOrTypeError) ∧
    (isBlankLine line = false → (strL "PING ").isPrefixOf line = false →
      textMessageMatch line = none →
      processChatLine line = ([.logIrc line], false)) := by
  refine ⟨rfl, rfl, ?_, ?_, ?_, ?_⟩
  · cases h : hsRun true reads with
    | mk evs o => simp [hsRun, h]
  · intro h
    simp [handleMessageStep, h]
  · intro h1 h2
    simp [handleMessageStep, h1, h2]
  · intro h1 h2 h3
    simp [processChatLine, h1, h2, h3]

/-- A list splits into a single piece exactly when the separator is absent. -/
theorem splitChar_eq_single (sep : Char) (l : List Char) (h : sep ∉ l) :
    splitChar sep l = [l] := by
  induction l with
  | nil => rfl
  | cons c cs ih =>
    have hc : ¬ c = sep := fun hcc => h (hcc ▸ List.mem_cons_self c cs)
    have hcs : sep ∉ cs := fun hm => h (List.mem_cons_of_mem c hm)
    simp [splitChar, hc, ih hcs]

/-- Splitting never yields the empty list of pieces. -/
theorem splitChar_ne_nil (sep : Char) (l : List Char) : splitChar sep l ≠ [] := by
  cases l with
  | nil => simp [splitChar]
  | cons c cs =>
    simp only [splitChar]
    split
    · simp
    · split <;> simp

/-- With the separator present, splitting yields at least two pieces. -/
theorem splitChar_length_ge_two (sep : Char) (l : List Char) (h : sep ∈ l) :
    2 ≤ (splitChar sep l).length := by
  induction l with
  | nil => simp at h
  | cons c cs ih =>
    by_cases hc : c = sep
    · subst hc
      have e : splitChar c (c :: cs) = [] :: splitChar c cs := by
        simp [splitChar]
      rw [e, List.length_cons]
      have h1 : 1 ≤ (splitChar c cs).length := by
        cases h2 : splitChar c cs with
        | nil => exact absurd h2 (splitChar_ne_nil c cs)
        | cons a t => simp
      omega
    · have hcs : sep ∈ cs := by
        rcases List.mem_cons.mp h with h1 | h1
        · exact absurd h1.symm hc
        · exact h1
      simp only [splitChar, if_neg hc]
      cases h2 : splitChar sep cs with
      | nil => exact absurd h2 (splitChar_ne_nil sep cs)
      | cons r rs =>
        have := ih hcs
        rw [h2] at this
        simpa using this

/-- Pulling the tag key/value fails exactly on a segment without `"="`. -/
theorem tagKeyValue_eq_none_iff (seg : List Char) :
    tagKeyValue seg = none ↔ '=' ∉ seg := by
  constructor
  · intro h hmem
    have h2 := splitChar_length_ge_two '=' seg hmem
    unfold tagKeyValue at h
    cases hsp : splitChar '=' seg with
    | nil => exact splitChar_ne_nil _ _ hsp
    | cons a t =>
      cases t with
      | nil => rw [hsp] at h2; simp at h2
      | cons b t2 => rw [hsp] at h; simp at h
  · intro h
    rw [tagKeyValue, splitChar_eq_single _ _ h]

/-- The dict comprehension fails exactly when some segment fails. -/
theorem tagPairs_eq_none_iff (segs : List (List Char)) :
    tagPairs segs = none ↔ ∃ seg ∈ segs, tagKeyValue seg = none := by
  induction segs with
  | nil => simp [tagPairs]
  | cons s rest ih =>
    simp only [tagPairs]
    cases h : tagKeyValue s with
    | none =>
      simp only [true_iff]
      exact ⟨s, List.mem_cons_self s rest, h⟩
    | some kv =>
      cases h2 : tagPairs rest with
      | none =>
        simp only [true_iff]
        obtain ⟨seg, hmem, hseg⟩ := ih.mp h2
        exact ⟨seg, List.mem_cons_of_mem s hmem, hseg⟩
      | some r =>
        refine iff_of_false (by simp) ?_
        rintro ⟨seg, hmem, hseg⟩
        rcases List.mem_cons.mp hmem with h3 | h3
        · rw [h3] at hseg; rw [hseg] at h; exact Option.noConfusion h
        · have h4 : tagPairs rest = none := ih.mpr ⟨seg, h3, hseg⟩
          rw [h4] at h2; exact Option.noConfusion h2

/-- C10: `TwitchChatter.parse` is partial in its tag-string argument — it
raises (`IndexError`, modelled as `none`) exactly when some
semicolon-separated segment contains no `"="`; under the precondition that
every segment contains at least one `"="`, it returns a Chatter. -/
theorem twitchChatter_parse_partial (username line : List Char) :
    (TwitchChatter.parse username line = none ↔
      ∃ seg ∈ splitChar ';' line, '=' ∉ seg) ∧
    ((∀ seg ∈ splitChar ';' line, '=' ∈ seg) →
      (TwitchChatter.parse username line).isSome) := by
  have base : TwitchChatter.parse username line = none ↔
      tagPairs (splitChar ';' line) = none := by
    unfold TwitchChatter.parse
    cases h : tagPairs (splitChar ';' line) <;> simp [h]
  have main : TwitchChatter.parse username line = none ↔
      ∃ seg ∈ splitChar ';' line, '=' ∉ seg := by
    rw [base, tagPairs_eq_none_iff]
    simp only [tagKeyValue_eq_none_iff]
  refine ⟨main, fun hall => ?_⟩
  rw [Option.isSome_iff_ne_none]
  intro hnone
  obtain ⟨seg, hmem, hno⟩ := main.mp hnone
  exact hno (hall seg hmem)

/-- Close-socket events of a handshake line scan: one exactly when the scan
ends in the terminal login failure (and the socket is present), none
otherwise. -/
theorem hsLines_close_count (sp : Bool) (ls : List (List Char)) :
    ((hsLines sp ls).2 = .loginFailed →
      (hsLines sp ls).1.count .closeChatSocket = if sp then 1 else 0) ∧
    ((hsLines sp ls).2 ≠ .loginFailed →
      (hsLines sp ls).1.count .closeChatSocket = 0) := by
  induction ls with
  | nil => simp [hsLines]
  | cons l rest ih =>
    by_cases h1 : l = strL ":tmi.twitch.tv NOTICE * :Login unsuccessful"
    · subst h1
      simp only [hsLines, if_pos rfl]
      cases sp <;> simp [List.count_cons]
    · by_cases h2 : (strL ":Welcome, GLHF!").isSuffixOf l = true
      · simp [hsLines, h1, h2, List.count_cons]
      · simpa [hsLines, h1, h2] using ih

/-- Close-socket events over a whole handshake run. -/
theorem hsRun_close_count (sp : Bool)
    (reads : List (Except (List Char) (List Char))) :
    ((hsRun sp reads).2 = .loginFailed →
      (hsRun sp reads).1.count .closeChatSocket = if sp then 1 else 0) ∧
    ((hsRun sp reads).2 ≠ .loginFailed →
      (hsRun sp reads).1.count .closeChatSocket = 0) := by
  induction reads with
  | nil => simp [hsRun]
  | cons r rest ih =>
    cases r with
    | error e =>
      simp only [hsRun]
      cases h : hsRun sp rest with
      | mk evs o =>
        rw [h] at ih
        simpa [List.count_cons] using ih
    | ok raw =>
      simp only [hsRun]
      have hl := hsLines_close_count sp (splitCRLF raw)
      cases h : hsLines sp (splitCRLF raw) with
      | mk evs o =>
        rw [h] at hl
        cases o with
        | stillWaiting =>
          cases h2 : hsRun sp rest with
          | mk evs2 o2 =>
            rw [h2] at ih
            simp only at hl ih ⊢
            have hzero : evs.count .closeChatSocket = 0 := hl.2 (by simp)
            simpa [List.count_append, hzero] using ih
        | loginFailed => simpa using hl
        | welcomed => simpa using hl

/-- C5: in the IRC handshake, the literal line
`":tmi.twitch.tv NOTICE * :Login unsuccessful"` transitions the session to
terminal login failure — the chat-socket close is invoked exactly once and
the receive coroutine returns without retrying the handshake; a handshake
run that does not end in login failure never invokes the close. -/
theorem handshake_login_failure (reads : List (Except (List Char) (List Char)))
    (post : List (List Char)) :
    hsLines true (strL ":tmi.twitch.tv NOTICE * :Login unsuccessful" :: post) =
      ([.logLoginFailed, .closeChatSocket], .loginFailed) ∧
    ((hsRun true reads).2 = .loginFailed →
      (hsRun true reads).1.count .closeChatSocket = 1) ∧
    ((hsRun true reads).2 ≠ .loginFailed →
      (hsRun true reads).1.count .closeChatSocket = 0) := by
  refine ⟨?_, ?_, (hsRun_close_count true reads).2⟩
  · simp [hsLines]
  · intro h
    simpa using (hsRun_close_count true reads).1 h

/-- C9: when a handshake read contains the welcome line followed by further
lines in the same read, the line loop breaks at the welcome line: every
later line of that read is discarded unexamined — the scan's events and
outcome are those of the welcome line alone, whatever follows. -/
theorem handshake_welcome_discards_rest (wl : List Char)
    (post : List (List Char))
    (h1 : wl ≠ strL ":tmi.twitch.tv NOTICE * :Login unsuccessful")
    (h2 : (strL ":Welcome, GLHF!").isSuffixOf wl = true) :
    hsLines true (wl :: post) = ([.logConnected], .welcomed) := by
  simp [hsLines, h1, h2]

/-- C9 witness: a PRIVMSG concatenated after the welcome in one read
produces nothing — no enqueue and no log. -/
theorem handshake_welcome_discards_rest_witness :
    hsLines true [strL ":tmi.twitch.tv 001 kae :Welcome, GLHF!",
      strL "@mod=1 :kae!kae@kae.tmi.twitch.tv PRIVMSG #kae :hi"] =
      ([.logConnected], .welcomed) :=
  handshake_welcome_discards_rest _ _ (by decide) (by decide)

/-- Characters of a well-formed component differ from every listed one. -/
theorem goodComp_ne {l bad : List Char} (h : goodComp l bad) {c : Char}
    (hc : c ∈ l) {x : Char} (hx : x ∈ bad) : c ≠ x :=
  fun he => h.2 c hc (he ▸ hx)

/-- A listed character does not occur in a well-formed component. -/
theorem goodComp_not_mem {l bad : List Char} (h : goodComp l bad) {x : Char}
    (hx : x ∈ bad) : x ∉ l :=
  fun hm => h.2 x hm hx

/-- The dot of the pattern accepts exactly the non-newline characters. -/
theorem dotChar_eq_true {c : Char} : dotChar c = true ↔ c ≠ '\n' := by
  simp [dotChar]

/-- A lazy `.+?` search lands on the intended split when the intended group
is nonempty and newline-free, the continuation fails at every shorter
split, and it succeeds at the intended one. -/
theorem lazyRun_intended {α : Type} (k : List Char → List Char → Option α)
    (v : α) :
    ∀ (mid g post : List Char), mid ≠ [] → '\n' ∉ mid →
      (∀ p q, p ++ q = mid → p ≠ [] → q ≠ [] →
        k (g ++ p) (q ++ post) = none) →
      k (g ++ mid) post = some v →
      lazyRun k g (mid ++ post) = some v := by
  intro mid
  induction mid with
  | nil => intro g post hne _ _ _; exact absurd rfl hne
  | cons c mid' ih =>
    intro g post _ hnl hfail hsucc
    have hdot : dotChar c = true :=
      dotChar_eq_true.mpr (fun he => hnl (he ▸ List.mem_cons_self c mid'))
    rw [List.cons_append]
    unfold lazyRun
    rw [if_pos hdot]
    cases mid' with
    | nil =>
      have h1 : k (g ++ [c]) post = some v := hsucc
      simp only [List.nil_append]
      rw [h1]
    | cons d mid'' =>
      have hfailc : k (g ++ [c]) ((d :: mid'') ++ post) = none :=
        hfail [c] (d :: mid'') rfl (by simp) (by simp)
      rw [hfailc]
      have hne' : d :: mid'' ≠ [] := by simp
      have hnl' : '\n' ∉ d :: mid'' :=
        fun hm => hnl (List.mem_cons_of_mem c hm)
      have hfail' : ∀ p q, p ++ q = d :: mid'' → p ≠ [] → q ≠ [] →
          k ((g ++ [c]) ++ p) (q ++ post) = none := by
        intro p q hpq hp hq
        have h2 : (c :: p) ++ q = c :: d :: mid'' := by
          rw [List.cons_append, hpq]
        have h3 := hfail (c :: p) q h2 (by simp) hq
        rwa [show g ++ (c :: p) = (g ++ [c]) ++ p by simp] at h3
      have hsucc' : k ((g ++ [c]) ++ (d :: mid'')) post = some v := by
        rwa [show (g ++ [c]) ++ (d :: mid'') = g ++ (c :: d :: mid'') by simp]
      exact ih (g ++ [c]) post hne' hnl' hfail' hsucc'

/-- Matching a literal character at its own occurrence. -/
theorem litChar_cons_self (c : Char) (rest : List Char) :
    litChar c (c :: rest) = some rest := by
  simp [litChar]

/-- Matching a literal character against a different head fails. -/
theorem litChar_cons_ne (c d : Char) (rest : List Char) (h : d ≠ c) :
    litChar c (d :: rest) = none := by
  simp [litChar, h]

/-- Matching a literal string at its own occurrence. -/
theorem litList_append_self (l t : List Char) : litList l (l ++ t) = some t := by
  induction l with
  | nil => rfl
  | cons c cs ih => simp [litList, ih]

/-- Matching a literal string against a different first character fails. -/
theorem litList_cons_ne (c : Char) (cs : List Char) (d : Char)
    (rest : List Char) (h : d ≠ c) :
    litList (c :: cs) (d :: rest) = none := by
  simp [litList, h]

/-- Taking while a predicate holds of every element is the identity. -/
theorem takeWhile_all (p : Char → Bool) (l : List Char)
    (h : ∀ c ∈ l, p c = true) : l.takeWhile p = l := by
  induction l with
  | nil => rfl
  | cons c cs ih =>
    rw [List.takeWhile_cons, if_pos (h c (List.mem_cons_self c cs))]
    rw [ih (fun c2 hc2 => h c2 (List.mem_cons_of_mem c hc2))]

/-- The greedy final `.+` consumes a whole newline-free nonempty rest. -/
theorem matchMessage_full (m : List Char) (hne : m ≠ [])
    (hnl : ∀ c ∈ m, c ≠ '\n') : matchMessage m = some m := by
  cases m with
  | nil => exact absurd rfl hne
  | cons c cs =>
    have hc : dotChar c = true :=
      dotChar_eq_true.mpr (hnl c (List.mem_cons_self c cs))
    have ht : cs.takeWhile dotChar = cs :=
      takeWhile_all _ _ (fun c2 hc2 =>
        dotChar_eq_true.mpr (hnl c2 (List.mem_cons_of_mem c hc2)))
    simp [matchMessage, hc, ht]

/-- The channel continuation at the intended split. -/
theorem afterChannel_at (tg : Option (List Char)) (u chan m : List Char)
    (hm : goodComp m (strL "\n")) :
    afterChannel tg u chan (' ' :: ':' :: m) = some ⟨tg, u, chan, m⟩ := by
  have hmm : matchMessage m = some m :=
    matchMessage_full m hm.1 (fun c hc => goodComp_ne hm hc (by decide))
  simp [afterChannel, litChar_cons_self, hmm]

/-- The lazy channel group lands exactly on the rendered channel. -/
theorem channel_stage (tg : Option (List Char)) (u chan m : List Char)
    (hchan : goodComp chan (strL " \n")) (hm : goodComp m (strL "\n")) :
    lazyRun (afterChannel tg u) [] (chan ++ ' ' :: ':' :: m) =
      some ⟨tg, u, chan, m⟩ := by
  apply lazyRun_intended (afterChannel tg u) _ chan [] (' ' :: ':' :: m)
    hchan.1 (goodComp_not_mem hchan (by decide))
  · intro p q hpq hp hq
    cases q with
    | nil => exact absurd rfl hq
    | cons d q' =>
      have hdmem : d ∈ chan := by
        rw [← hpq]
        exact List.mem_append_right p (List.mem_cons_self d q')
      have hd : d ≠ ' ' := goodComp_ne hchan hdmem (by decide)
      simp [afterChannel, litChar_cons_ne _ _ _ hd]
  · simpa using afterChannel_at tg u chan m hm

/-- The host literal and channel group after the second host component. -/
theorem afterHost_at (tg : Option (List Char)) (u chan m : List Char)
    (hchan : goodComp chan (strL " \n")) (hm : goodComp m (strL "\n")) :
    afterHost tg u
        (strL ".tmi.twitch.tv PRIVMSG #" ++ (chan ++ ' ' :: ':' :: m)) =
      some ⟨tg, u, chan, m⟩ := by
  unfold afterHost
  rw [litList_append_self]
  exact channel_stage tg u chan m hchan hm

/-- The host literal cannot match at a head other than `'.'`. -/
theorem afterHost_head_ne (tg : Option (List Char)) (u : List Char) (d : Char)
    (rest : List Char) (hd : d ≠ '.') : afterHost tg u (d :: rest) = none := by
  have e : strL ".tmi.twitch.tv PRIVMSG #" =
      '.' :: strL "tmi.twitch.tv PRIVMSG #" := by decide
  have h1 : litList (strL ".tmi.twitch.tv PRIVMSG #") (d :: rest) = none := by
    rw [e]; exact litList_cons_ne _ _ _ _ hd
  simp [afterHost, h1]

/-- The whole pattern from the `':'` on lands on the rendered components. -/
theorem matchFromColon_at (tg : Option (List Char))
    (user host1 host2 chan m : List Char)
    (hu : goodComp user (strL "!\n")) (hh1 : goodComp host1 (strL "@\n"))
    (hh2 : goodComp host2 (strL ".\n")) (hchan : goodComp chan (strL " \n"))
    (hm : goodComp m (strL "\n")) :
    matchFromColon tg (':' :: (user ++ '!' :: (host1 ++ '@' :: (host2 ++
        (strL ".tmi.twitch.tv PRIVMSG #" ++ (chan ++ ' ' :: ':' :: m)))))) =
      some ⟨tg, user, chan, m⟩ := by
  refine lazyRun_intended _ _ user [] _ hu.1
    (goodComp_not_mem hu (by decide)) ?_ ?_
  · intro p q hpq hp hq
    cases q with
    | nil => exact absurd rfl hq
    | cons d q' =>
      have hdmem : d ∈ user := by
        rw [← hpq]; exact List.mem_append_right p (List.mem_cons_self d q')
      have hd : d ≠ '!' := goodComp_ne hu hdmem (by decide)
      simp [litChar_cons_ne _ _ _ hd]
  · simp only [List.nil_append]
    rw [show (litChar '!' ('!' :: (host1 ++ '@' :: (host2 ++
        (strL ".tmi.twitch.tv PRIVMSG #" ++ (chan ++ ' ' :: ':' :: m)))))).bind
          (fun r3 => lazyRun (fun _ r4 =>
            (litChar '@' r4).bind fun r5 =>
              lazyRun (fun _ r6 => afterHost tg user r6) [] r5) [] r3) =
        lazyRun (fun _ r4 =>
            (litChar '@' r4).bind fun r5 =>
              lazyRun (fun _ r6 => afterHost tg user r6) [] r5) []
          (host1 ++ '@' :: (host2 ++
            (strL ".tmi.twitch.tv PRIVMSG #" ++ (chan ++ ' ' :: ':' :: m))))
      from rfl]
    refine lazyRun_intended _ _ host1 [] _ hh1.1
      (goodComp_not_mem hh1 (by decide)) ?_ ?_
    · intro p q hpq hp hq
      cases q with
      | nil => exact absurd rfl hq
      | cons d q' =>
        have hdmem : d ∈ host1 := by
          rw [← hpq]; exact List.mem_append_right p (List.mem_cons_self d q')
        have hd : d ≠ '@' := goodComp_ne hh1 hdmem (by decide)
        simp [litChar_cons_ne _ _ _ hd]
    · rw [show (litChar '@' ('@' :: (host2 ++
          (strL ".tmi.twitch.tv PRIVMSG #" ++ (chan ++ ' ' :: ':' :: m))))).bind
            (fun r5 => lazyRun (fun _ r6 => afterHost tg user r6) [] r5) =
          lazyRun (fun _ r6 => afterHost tg user r6) []
            (host2 ++ (strL ".tmi.twitch.tv PRIVMSG #" ++ (chan ++ ' ' :: ':' :: m)))
        from rfl]
      refine lazyRun_intended _ _ host2 [] _ hh2.1
        (goodComp_not_mem hh2 (by decide)) ?_ ?_
      · intro p q hpq hp hq
        cases q with
        | nil => exact absurd rfl hq
        | cons d q' =>
          have hdmem : d ∈ host2 := by
            rw [← hpq]; exact List.mem_append_right p (List.mem_cons_self d q')
          have hd : d ≠ '.' := goodComp_ne hh2 hdmem (by decide)
          exact afterHost_head_ne tg user d _ hd
      · exact afterHost_at tg user chan m hchan hm

/-- Reduction of the matcher at a line starting `'@'`: the optional tag
group is attempted, with fallback to the group-less pattern. -/
theorem textMessageMatch_tag_head (r : List Char) :
    textMessageMatch ('@' :: r) =
      match lazyRun (fun t r2 =>
          (litChar ' ' r2).bind fun r3 => matchFromColon (some t) r3) [] r with
      | some v => some v
      | none => matchFromColon none ('@' :: r) := rfl

/-- Reduction of the matcher at a line starting `':'`: the optional tag
group cannot match, so only the group-less pattern is tried. -/
theorem textMessageMatch_colon_head (r : List Char) :
    textMessageMatch (':' :: r) = matchFromColon none (':' :: r) := rfl

/-- The regex on a well-formed tagged line extracts every group exactly. -/
theorem textMessageMatch_tagged (tags user host1 host2 chan msg : List Char)
    (ht : goodComp tags (strL " \n")) (hu : goodComp user (strL "!\n"))
    (hh1 : goodComp host1 (strL "@\n")) (hh2 : goodComp host2 (strL ".\n"))
    (hchan : goodComp chan (strL " \n")) (hmsg : goodComp msg (strL "\n")) :
    textMessageMatch (renderTagged tags user host1 host2 chan msg) =
      some ⟨some tags, user, chan, msg⟩ := by
  have hrun : lazyRun (fun t r2 =>
      (litChar ' ' r2).bind fun r3 => matchFromColon (some t) r3) []
      (tags ++ ' ' :: ':' :: (user ++ '!' :: (host1 ++ '@' :: (host2 ++
        (strL ".tmi.twitch.tv PRIVMSG #" ++ (chan ++ ' ' :: ':' :: msg)))))) =
      some ⟨some tags, user, chan, msg⟩ := by
    refine lazyRun_intended _ _ tags [] _ ht.1
      (goodComp_not_mem ht (by decide)) ?_ ?_
    · intro p q hpq hp hq
      cases q with
      | nil => exact absurd rfl hq
      | cons d q' =>
        have hdmem : d ∈ tags := by
          rw [← hpq]; exact List.mem_append_right p (List.mem_cons_self d q')
        have hd : d ≠ ' ' := goodComp_ne ht hdmem (by decide)
        simp [litChar_cons_ne _ _ _ hd]
    · simp only [List.nil_append]
      rw [litChar_cons_self]
      simp only [Option.bind]
      exact matchFromColon_at (some tags) user host1 host2 chan msg
        hu hh1 hh2 hchan hmsg
  unfold renderTagged
  rw [textMessageMatch_tag_head, hrun]

/-- The regex on a well-formed untagged line leaves the tag group empty and
extracts the other groups exactly. -/
theorem textMessageMatch_untagged (user host1 host2 chan msg : List Char)
    (hu : goodComp user (strL "!\n")) (hh1 : goodComp host1 (strL "@\n"))
    (hh2 : goodComp host2 (strL ".\n")) (hchan : goodComp chan (strL " \n"))
    (hmsg : goodComp msg (strL "\n")) :
    textMessageMatch (renderUntagged user host1 host2 chan msg) =
      some ⟨none, user, chan, msg⟩ := by
  unfold renderUntagged
  rw [textMessageMatch_colon_head]
  exact matchFromColon_at none user host1 host2 chan msg hu hh1 hh2 hchan hmsg

/-- Splitting a separator-free segment followed by the separator. -/
theorem splitChar_append_cons (sep : Char) :
    ∀ seg t : List Char, sep ∉ seg →
      splitChar sep (seg ++ sep :: t) = seg :: splitChar sep t := by
  intro seg
  induction seg with
  | nil =>
    intro t _
    simp [splitChar]
  | cons c cs ih =>
    intro t h
    have hc : ¬ c = sep := fun hcc => h (hcc ▸ List.mem_cons_self c cs)
    have hcs : sep ∉ cs := fun hm => h (List.mem_cons_of_mem c hm)
    rw [List.cons_append]
    simp only [splitChar]
    rw [if_neg hc, ih t hcs]

/-- A well-formed segment contains no semicolon. -/
theorem renderSeg_no_semi (kv : List Char × List Char) (h : goodPair kv) :
    ';' ∉ renderSeg kv := by
  intro hm
  rcases List.mem_append.mp hm with h2 | h2
  · exact h.1 ';' h2 (by decide)
  · rcases List.mem_cons.mp h2 with h3 | h3
    · exact absurd h3 (by decide)
    · exact h.2 ';' h3 (by decide)

/-- Splitting a rendered tag block recovers the rendered segments. -/
theorem splitChar_renderTags :
    ∀ pairs : List (List Char × List Char), pairs ≠ [] →
      (∀ kv ∈ pairs, goodPair kv) →
      splitChar ';' (renderTags pairs) = pairs.map renderSeg := by
  intro pairs
  induction pairs with
  | nil => intro h _; exact absurd rfl h
  | cons kv rest ih =>
    intro _ hgood
    have hns : ';' ∉ renderSeg kv :=
      renderSeg_no_semi kv (hgood kv (List.mem_cons_self kv rest))
    cases rest with
    | nil =>
      show splitChar ';' (renderSeg kv) = [renderSeg kv]
      exact splitChar_eq_single ';' _ hns
    | cons kv2 rest2 =>
      rw [show renderTags (kv :: kv2 :: rest2) =
          renderSeg kv ++ ';' :: renderTags (kv2 :: rest2) from rfl]
      rw [splitChar_append_cons ';' _ _ hns]
      rw [ih (by simp) (fun p hp => hgood p (List.mem_cons_of_mem kv hp))]
      rfl

/-- Re-parsing one rendered segment recovers its key and value exactly. -/
theorem tagKeyValue_renderSeg (kv : List Char × List Char) (h : goodPair kv) :
    tagKeyValue (renderSeg kv) = some kv := by
  obtain ⟨k, v⟩ := kv
  have hk : '=' ∉ k := fun hm => h.1 '=' hm (by decide)
  have hv : '=' ∉ v := fun hm => h.2 '=' hm (by decide)
  unfold tagKeyValue renderSeg
  rw [splitChar_append_cons '=' k v hk, splitChar_eq_single '=' v hv]

/-- Re-parsing every rendered segment recovers the pair list exactly. -/
theorem tagPairs_renderSegs :
    ∀ pairs : List (List Char × List Char), (∀ kv ∈ pairs, goodPair kv) →
      tagPairs (pairs.map renderSeg) = some pairs := by
  intro pairs
  induction pairs with
  | nil => intro _; rfl
  | cons kv rest ih =>
    intro hgood
    simp only [List.map_cons, tagPairs,
      tagKeyValue_renderSeg kv (hgood kv (List.mem_cons_self kv rest)),
      ih (fun p hp => hgood p (List.mem_cons_of_mem kv hp))]

/-- Chatter parsed from a rendered tag block: exactly the dict lookups over
the original pairs. -/
theorem parse_renderTags (username : List Char)
    (pairs : List (List Char × List Char)) (hne : pairs ≠ [])
    (hgood : ∀ kv ∈ pairs, goodPair kv) :
    TwitchChatter.parse username (renderTags pairs) =
      some (chatterOfPairs username pairs) := by
  unfold TwitchChatter.parse
  rw [splitChar_renderTags pairs hne hgood, tagPairs_renderSegs pairs hgood]
  rfl

/-- Characters of a rendered tag block come from the pairs or are the two
separators. -/
theorem renderTags_mem :
    ∀ (pairs : List (List Char × List Char)) (c : Char),
      c ∈ renderTags pairs →
      c = '=' ∨ c = ';' ∨ ∃ kv ∈ pairs, c ∈ kv.1 ∨ c ∈ kv.2 := by
  intro pairs
  induction pairs with
  | nil => intro c hc; simp [renderTags] at hc
  | cons kv rest ih =>
    intro c hc
    cases rest with
    | nil =>
      rcases List.mem_append.mp hc with h | h
      · exact Or.inr (Or.inr ⟨kv, by simp, Or.inl h⟩)
      · rcases List.mem_cons.mp h with h2 | h2
        · exact Or.inl h2
        · exact Or.inr (Or.inr ⟨kv, by simp, Or.inr h2⟩)
    | cons kv2 rest2 =>
      rw [show renderTags (kv :: kv2 :: rest2) =
          renderSeg kv ++ ';' :: renderTags (kv2 :: rest2) from rfl] at hc
      rcases List.mem_append.mp hc with h | h
      · rcases List.mem_append.mp h with h2 | h2
        · exact Or.inr (Or.inr ⟨kv, by simp, Or.inl h2⟩)
        · rcases List.mem_cons.mp h2 with h3 | h3
          · exact Or.inl h3
          · exact Or.inr (Or.inr ⟨kv, by simp, Or.inr h3⟩)
      · rcases List.mem_cons.mp h with h2 | h2
        · exact Or.inr (Or.inl h2)
        · rcases ih c h2 with h3 | h3 | ⟨kv3, hm, h4⟩
          · exact Or.inl h3
          · exact Or.inr (Or.inl h3)
          · exact Or.inr (Or.inr ⟨kv3, List.mem_cons_of_mem kv hm, h4⟩)

/-- A rendered tag block is a well-formed tag-group component. -/
theorem renderTags_good (pairs : List (List Char × List Char))
    (hne : pairs ≠ []) (hgood : ∀ kv ∈ pairs, goodPair kv) :
    goodComp (renderTags pairs) (strL " \n") := by
  constructor
  · cases pairs with
    | nil => exact absurd rfl hne
    | cons kv rest =>
      cases rest with
      | nil =>
        show renderSeg kv ≠ []
        intro h
        exact List.noConfusion (List.append_eq_nil.mp h).2
      | cons kv2 rest2 =>
        rw [show renderTags (kv :: kv2 :: rest2) =
            renderSeg kv ++ ';' :: renderTags (kv2 :: rest2) from rfl]
        intro h
        exact List.noConfusion (List.append_eq_nil.mp h).2
  · intro c hc hmem
    have hsub : c ∈ strL "=; \n" := by
      have e1 : strL " \n" = [' ', '\n'] := by decide
      rw [e1] at hmem
      have e2 : strL "=; \n" = ['=', ';', ' ', '\n'] := by decide
      rw [e2]
      fin_cases hmem <;> simp
    rcases renderTags_mem pairs c hc with h | h | ⟨kv, hkv, h⟩
    · subst h
      have e1 : strL " \n" = [' ', '\n'] := by decide
      rw [e1] at hmem
      simp at hmem
    · subst h
      have e1 : strL " \n" = [' ', '\n'] := by decide
      rw [e1] at hmem
      simp at hmem
    · have hg := hgood kv hkv
      rcases h with h | h
      · exact hg.1 c h hsub
      · exact hg.2 c h hsub

/-- A line whose head is not whitespace is not blank. -/
theorem isBlankLine_cons_false (c : Char) (rest : List Char)
    (h : isPySpace c = false) : isBlankLine (c :: rest) = false := by
  simp [isBlankLine, h]

/-- A prefix test fails on differing heads. -/
theorem isPrefixOf_cons_ne (a : Char) (as : List Char) (b : Char)
    (bs : List Char) (h : b ≠ a) : (a :: as).isPrefixOf (b :: bs) = false := by
  simp [List.isPrefixOf, Ne.symm h]

/-- A list is a prefix of itself followed by anything. -/
theorem isPrefixOf_append_self (l t : List Char) :
    l.isPrefixOf (l ++ t) = true := by
  induction l with
  | nil => simp [List.isPrefixOf]
  | cons c cs ih => simp [List.isPrefixOf, ih]

/-- A defaulted tag lookup equals `"1"` exactly when the tag is present with
value literally `"1"`. -/
theorem getD_beq_one_iff (o : Option (List Char)) :
    (o.getD (strL "0") == strL "1") = true ↔ o = some (strL "1") := by
  cases o with
  | none => decide
  | some v => simp [Option.getD, beq_iff_eq]

/-- C7: for every well-formed tagged PRIVMSG line, the regex extracts the
tag block, username, channel and message exactly as present
(case-sensitively), and the Chatter built from it has its moderator,
subscriber and vip flags each true iff the corresponding tag's value is
literally `"1"`; a well-formed untagged PRIVMSG line enqueues a Chatter
with only the username set (no colour, all capability flags false). -/
theorem privmsg_line_parsing (pairs : List (List Char × List Char))
    (user host1 host2 chan msg : List Char)
    (hpne : pairs ≠ []) (hpairs : ∀ kv ∈ pairs, goodPair kv)
    (hu : goodComp user (strL "!\n")) (hh1 : goodComp host1 (strL "@\n"))
    (hh2 : goodComp host2 (strL ".\n")) (hchan : goodComp chan (strL " \n"))
    (hmsg : goodComp msg (strL "\n")) :
    textMessageMatch
        (renderTagged (renderTags pairs) user host1 host2 chan msg) =
      some ⟨some (renderTags pairs), user, chan, msg⟩ ∧
    (∃ ch : TwitchChatter,
      processChatLine
          (renderTagged (renderTags pairs) user host1 host2 chan msg) =
        ([.enqueueChat ch msg], false) ∧
      ch.username = user ∧
      (ch.moderator = true ↔ dictGet pairs (strL "mod") = some (strL "1")) ∧
      (ch.subscriber = true ↔
        dictGet pairs (strL "subscriber") = some (strL "1")) ∧
      (ch.vip = true ↔ dictGet pairs (strL "vip") = some (strL "1"))) ∧
    processChatLine (renderUntagged user host1 host2 chan msg) =
      ([.enqueueChat { username := user } msg], false) := by
  have ht := renderTags_good pairs hpne hpairs
  have hmatch := textMessageMatch_tagged (renderTags pairs) user host1 host2
    chan msg ht hu hh1 hh2 hchan hmsg
  have hparse := parse_renderTags user pairs hpne hpairs
  refine ⟨hmatch, ⟨chatterOfPairs user pairs,
    ?_, rfl, getD_beq_one_iff _, getD_beq_one_iff _, getD_beq_one_iff _⟩, ?_⟩
  · have hb : isBlankLine
        (renderTagged (renderTags pairs) user host1 host2 chan msg) = false := by
      unfold renderTagged
      exact isBlankLine_cons_false '@' _ (by decide)
    have hping : (strL "PING ").isPrefixOf
        (renderTagged (renderTags pairs) user host1 host2 chan msg) = false := by
      unfold renderTagged
      rw [show strL "PING " = 'P' :: strL "ING " from by decide]
      exact isPrefixOf_cons_ne 'P' _ '@' _ (by decide)
    simp only [processChatLine, hb, hping, hmatch, hparse]
    simp
  · have hb2 : isBlankLine (renderUntagged user host1 host2 chan msg) = false := by
      unfold renderUntagged
      exact isBlankLine_cons_false ':' _ (by decide)
    have hping2 : (strL "PING ").isPrefixOf
        (renderUntagged user host1 host2 chan msg) = false := by
      unfold renderUntagged
      rw [show strL "PING " = 'P' :: strL "ING " from by decide]
      exact isPrefixOf_cons_ne 'P' _ ':' _ (by decide)
    have hmatch2 := textMessageMatch_untagged user host1 host2 chan msg
      hu hh1 hh2 hchan hmsg
    simp only [processChatLine, hb2, hping2, hmatch2]
    simp

/-- C7 witness: a concrete well-formed untagged line enqueues the bare
Chatter, through the main parsing theorem at concrete inputs. -/
theorem privmsg_line_parsing_witness :
    processChatLine (renderUntagged (strL "kae") (strL "kae") (strL "kae")
        (strL "chan") (strL "hi")) =
      ([.enqueueChat { username := strL "kae" } (strL "hi")], false) :=
  (privmsg_line_parsing [(strL "mod", strL "1")] (strL "kae") (strL "kae")
    (strL "kae") (strL "chan") (strL "hi") (by decide) (by decide) (by decide)
    (by decide) (by decide) (by decide) (by decide)).2.2

/-- Python `line.split(' ', 1)` on a PING line: the token after the first
space, verbatim. -/
theorem splitOnceChar_ping (tok : List Char) :
    splitOnceChar ' ' (strL "PING " ++ tok) = [strL "PING", tok] := by
  rw [show strL "PING " = 'P' :: 'I' :: 'N' :: 'G' :: [' '] from by decide,
    show strL "PING" = 'P' :: 'I' :: 'N' :: ['G'] from by decide]
  simp [splitOnceChar]

/-- A steady-state PING line sends exactly the PONG with the verbatim
token. -/
theorem processChatLine_ping (tok : List Char) :
    processChatLine (strL "PING " ++ tok) = ([.sendPong tok], false) := by
  have e : strL "PING " ++ tok = 'P' :: (strL "ING " ++ tok) := by
    rw [show strL "PING " = 'P' :: strL "ING " from by decide]
    exact List.cons_append 'P' (strL "ING ") tok
  have hb : isBlankLine (strL "PING " ++ tok) = false := by
    rw [e]
    exact isBlankLine_cons_false 'P' _ (by decide)
  have hp : (strL "PING ").isPrefixOf (strL "PING " ++ tok) = true :=
    isPrefixOf_append_self _ _
  simp only [processChatLine, hb, hp, splitOnceChar_ping tok]
  simp

/-- C6 counterexample: the read `"PING :abc\r\nPRIVMSG #c :hi\r\n"` sends
`PONG :abc` but then only logs the second line — a bare `PRIVMSG #c :hi`
does not match the message grammar (it lacks the `:user!user@host` source
prefix), so nothing is ever enqueued on the chat queue for it. -/
theorem bare_privmsg_read_not_enqueued :
    processChatRead (strL "PING :abc\r\nPRIVMSG #c :hi\r\n") =
      ([.sendPong (strL ":abc"), .logIrc (strL "PRIVMSG #c :hi")], false) := by
  decide

/-- C6 amended: a raw read is split on `"\r\n"` and its logical lines are
processed in order; a line beginning `"PING "` sends `PONG` with the token
after the first space verbatim, and that send precedes every action of
every later line of the read. The spec's example read enqueues nothing (its
bare PRIVMSG does not match the grammar); with the source prefix present,
the `PONG :abc` send strictly precedes the enqueue of `hi`. -/
theorem ping_reply_ordering (tok : List Char) (ls : List (List Char)) :
    processChatLine (strL "PING " ++ tok) = ([.sendPong tok], false) ∧
    processChatLines ((strL "PING " ++ tok) :: ls) =
      (IrcAction.sendPong tok :: (processChatLines ls).1,
        (processChatLines ls).2) ∧
    processChatRead
        (strL "PING :abc\r\n:u!u@u.tmi.twitch.tv PRIVMSG #c :hi\r\n") =
      ([.sendPong (strL ":abc"),
        .enqueueChat { username := strL "u" } (strL "hi")], false) := by
  refine ⟨processChatLine_ping tok, ?_, by decide⟩
  simp only [processChatLines, processChatLine_ping tok]
  cases h : processChatLines ls with
  | mk as2 f2 => simp

/-- C8: a PONG-typed envelope is logged only; a MESSAGE-typed envelope on a
channel-points topic has its nested JSON message string parsed a second
time and the resulting event enqueued unmodified, so the nested reward
fields round-trip exactly from the input JSON; any other envelope (other
type, or MESSAGE on a different topic) is logged only, nothing enqueued. -/
theorem pubsub_envelope_processing (raw ts ms f : List Char)
    (data d t ev : Json) :
    (jsonLoads raw = some data →
      data.get? (strL "type") = some (.str (strL "PONG")) →
      handleMessageStep (.ok raw) = .ok [.logPong]) ∧
    (jsonLoads raw = some data →
      data.get? (strL "type") = some (.str (strL "MESSAGE")) →
      data.get? (strL "data") = some d →
      d.get? (strL "topic") = some (.str ts) →
      (strL "channel-points-channel-v1").isPrefixOf ts = true →
      d.get? (strL "message") = some (.str ms) →
      jsonLoads ms = some ev →
      handleMessageStep (.ok raw) = .ok [.enqueueRedemption ev] ∧
        rewardField ev f = envelopeNestedRewardField raw f) ∧
    (jsonLoads raw = some data →
      data.get? (strL "type") = some t →
      t ≠ .str (strL "PONG") → t ≠ .str (strL "MESSAGE") →
      handleMessageStep (.ok raw) = .ok [.logOther data]) ∧
    (jsonLoads raw = some data →
      data.get? (strL "type") = some (.str (strL "MESSAGE")) →
      data.get? (strL "data") = some d →
      d.get? (strL "topic") = some (.str ts) →
      (strL "channel-points-channel-v1").isPrefixOf ts = false →
      handleMessageStep (.ok raw) = .ok [.logOther data]) := by
  have hne : ¬ (Json.str (strL "MESSAGE") = Json.str (strL "PONG")) := by
    decide
  refine ⟨?_, ?_, ?_, ?_⟩
  · intro h1 h2
    simp [handleMessageStep, h1, h2]
  · intro h1 h2 h3 h4 h5 h6 h7
    constructor
    · simp [handleMessageStep, h1, h2, h3, h4, h5, h6, h7, hne]
    · simp [envelopeNestedRewardField, h1, h3, h6, h7]
  · intro h1 h2 h3 h4
    simp [handleMessageStep, h1, h2, h3, h4]
  · intro h1 h2 h3 h4 h5
    simp [handleMessageStep, h1, h2, h3, h4, h5, hne]

set_option maxRecDepth 100000 in
/-- C8 witness: the concrete envelope's nested event is enqueued unmodified
and its reward cost round-trips from the input JSON. -/
theorem pubsub_envelope_processing_witness :
    handleMessageStep (.ok sampleEnvelope) =
      .ok [.enqueueRedemption sampleRedemptionEvent] ∧
    rewardField sampleRedemptionEvent (strL "cost") =
      envelopeNestedRewardField sampleEnvelope (strL "cost") :=
  (pubsub_envelope_processing sampleEnvelope
      (strL "channel-points-channel-v1.123") sampleMessageStr (strL "cost")
      sampleEnvelopeData sampleEnvelopeInner Json.null
      sampleRedemptionEvent).2.1
    (by decide) (by decide) (by decide) (by decide) (by decide) (by decide)
    (by decide)

end Streamlink
